import Mathlib

/-!
Verification of the editable-geometries type-declaration layer
(`ui-ngx/src/typings/leadflet-editable.d.ts`) and of the capability model
its specification describes.

The repository file is an ambient TypeScript declaration file: it declares
interfaces (`Editable`, `EditableMixin`, `EditOptions`, the editor
hierarchy, `Map`, and augmented geometry interfaces) but contains no
executable code.  Accordingly this development has two parts:

1. A behavioural model of the editing controller, the editable mixin and
   the polygon editor.  The implementations of these operations are not in
   the repository (only their declarations are), so each operation is
   modelled from the specification text; every such definition carries a
   doc comment starting with `Modelled from the spec:`.

2. A direct embedding of the declaration file itself: the interfaces it
   declares, their `extends` clauses and their declared members, transcribed
   from the source, so that structural claims about the declaration layer
   can be decided.
-/

namespace LeafletEditable

/-! ## Part 1a: the editable mixin (per-geometry capability) -/

/-- Modelled from the spec: an editor attached to a geometry is a stateful
helper whose editor state machine has states {disabled, enabled}
(spec section 4.3).  Only the enabled flag is observable at this level. -/
structure Editor where
  enabled : Bool
  deriving DecidableEq, Repr

/-- Modelled from the spec: `enable()` moves the editor disabled→enabled and
is idempotent when already enabled (spec section 4.3). -/
def Editor.enable (e : Editor) : Editor := { e with enabled := true }

/-- Modelled from the spec: `disable()` moves the editor enabled→disabled and
is idempotent when already disabled (spec section 4.3). -/
def Editor.disable (e : Editor) : Editor := { e with enabled := false }

/-- Modelled from the spec: the state of one geometry instance carrying the
editable mixin.  The invariant "at most one editor is attached at a time"
is a contract, unenforced at the type level (spec section 3), so the state
deliberately allows a list of attached editors; the mixin operations must
maintain that the list never grows beyond one element. -/
structure GeomState where
  editors : List Editor
  deriving DecidableEq, Repr

/-- Modelled from the spec: the `editor` property of the mixin — the editor
currently attached to the instance, if any. -/
def attachedEditor (g : GeomState) : Option Editor := g.editors.head?

/-- Modelled from the spec: `enableEdit()` creates an editor for this
geometry if none exists, then activates it; it must not create duplicate
editors (spec section 4.2). -/
def enableEdit (g : GeomState) : GeomState :=
  match g.editors with
  | e :: rest => ⟨Editor.enable e :: rest⟩
  | [] => ⟨[Editor.enable ⟨false⟩]⟩

/-- Modelled from the spec: `disableEdit()` deactivates and discards the
attached editor if present, removing the editor reference entirely; no-op
otherwise (spec sections 3 and 4.2). -/
def disableEdit (_g : GeomState) : GeomState := ⟨[]⟩

/-- Modelled from the spec: `editEnabled()` is a pure query, true iff an
editor is attached and active (spec section 4.2). -/
def editEnabled (g : GeomState) : Bool :=
  match attachedEditor g with
  | some e => e.enabled
  | none => false

/-- Modelled from the spec: `toggleEdit()` flips enabled/disabled state
based on current status (spec section 4.2). -/
def toggleEdit (g : GeomState) : GeomState :=
  if editEnabled g then disableEdit g else enableEdit g

/-- Geometry states reachable from a fresh geometry (no editor attached)
by the mixin operations. -/
inductive GeomReachable : GeomState → Prop
  | init : GeomReachable ⟨[]⟩
  | enable {g} : GeomReachable g → GeomReachable (enableEdit g)
  | disable {g} : GeomReachable g → GeomReachable (disableEdit g)
  | toggle {g} : GeomReachable g → GeomReachable (toggleEdit g)

/-! ## Part 1b: the editing controller (per-map) -/

/-- Geographic point; coordinates are opaque to the editing logic. -/
abbrev LatLng := Int × Int

/-- The three geometry kinds the controller can draw. -/
inductive DrawKind
  | polyline
  | polygon
  | marker
  deriving DecidableEq, Repr

/-- Modelled from the spec: a geometry under construction or finalized —
its kind and its vertices in insertion order. -/
structure Draw where
  kind : DrawKind
  vertices : List LatLng
  deriving DecidableEq, Repr

/-- Modelled from the spec: the state of the per-map editing controller.
The controller must own zero-or-one active in-progress draw (spec
section 4.1); the state allows a list of active draws so that this
mutual-exclusion discipline is a property of the operations, not of the
state type.  `featuresLayer` is the default output collection finalized
geometries are attached to (spec section 3). -/
structure EditableState where
  activeDraws : List Draw
  featuresLayer : List Draw
  deriving DecidableEq, Repr

/-- Modelled from the spec: if an initial point is supplied to a start
operation, it seeds the geometry with one vertex (spec section 4.1). -/
def seedVertices (latLng : Option LatLng) : List LatLng :=
  match latLng with
  | some p => [p]
  | none => []

/-- Modelled from the spec: common behaviour of the start operations —
begins a new draw of the given kind, seeded from the optional initial
point, and returns a handle to the geometry under construction.  When a
draw is already active the call no-ops (the spec leaves the policy to the
implementer and names "fails silently/no-ops" as the documented choice,
spec section 4.1); the existing draw is returned as the handle. -/
def startDraw (k : DrawKind) (latLng : Option LatLng) (s : EditableState) :
    Draw × EditableState :=
  match s.activeDraws with
  | d :: _ => (d, s)
  | [] =>
    let d : Draw := ⟨k, seedVertices latLng⟩
    (d, { s with activeDraws := [d] })

/-- Modelled from the spec: `startPolyline(initialPoint?)` begins a new
polyline draw (spec section 4.1). -/
def startPolyline (latLng : Option LatLng) (s : EditableState) :
    Draw × EditableState :=
  startDraw DrawKind.polyline latLng s

/-- Modelled from the spec: `startPolygon(initialPoint?)` begins a new
closed-path draw (spec section 4.1). -/
def startPolygon (latLng : Option LatLng) (s : EditableState) :
    Draw × EditableState :=
  startDraw DrawKind.polygon latLng s

/-- Modelled from the spec: `startMarker(initialPoint?)` begins placing a
single point (spec section 4.1). -/
def startMarker (latLng : Option LatLng) (s : EditableState) :
    Draw × EditableState :=
  startDraw DrawKind.marker latLng s

/-- Modelled from the spec: subsequent user interaction appends vertices to
the geometry under construction (spec section 4.1); with no active draw a
click adds nothing. -/
def addVertex (p : LatLng) (s : EditableState) : EditableState :=
  match s.activeDraws with
  | d :: rest =>
    { s with activeDraws := { d with vertices := d.vertices ++ [p] } :: rest }
  | [] => s

/-- Modelled from the spec: `stopDrawing()` cancels any in-progress draw
regardless of geometry kind; idempotent (spec section 4.1). -/
def stopDrawing (s : EditableState) : EditableState :=
  { s with activeDraws := [] }

/-- Modelled from the spec: `commitDrawing()` finalizes the in-progress
geometry, attaching it to the default output collection (`featuresLayer`);
idempotent if nothing is in progress (spec section 4.1). -/
def commitDrawing (s : EditableState) : EditableState :=
  match s.activeDraws with
  | d :: rest => ⟨rest, s.featuresLayer ++ [d]⟩
  | [] => s

/-- Controller states reachable from a fresh controller (no active draw,
empty features layer) by the controller operations. -/
inductive Reachable : EditableState → Prop
  | init : Reachable ⟨[], []⟩
  | startPolyline (latLng) {s} :
      Reachable s → Reachable (startPolyline latLng s).2
  | startPolygon (latLng) {s} :
      Reachable s → Reachable (startPolygon latLng s).2
  | startMarker (latLng) {s} :
      Reachable s → Reachable (startMarker latLng s).2
  | addVertex (p) {s} : Reachable s → Reachable (addVertex p s)
  | stop {s} : Reachable s → Reachable (stopDrawing s)
  | commit {s} : Reachable s → Reachable (commitDrawing s)

/-! ## Part 1c: the polygon editor's hole operation -/

/-- Modelled from the spec: the observable state of a polygon editor — the
editor's enabled flag, the polygon's outer ring, and its interior rings
(holes), each a vertex list (spec sections 4.3 and 8). -/
structure PolygonEditorState where
  enabled : Bool
  outer : List LatLng
  holes : List (List LatLng)
  deriving DecidableEq, Repr

/-- Modelled from the spec: `newHole(point)` begins drawing a new interior
ring; the supplied point seeds the hole's first vertex; the existing outer
ring is untouched (spec sections 4.3 and 8).  The point is mandatory in the
declaration (`newHole(latlng: LatLng): void`). -/
def newHole (p : LatLng) (e : PolygonEditorState) : PolygonEditorState :=
  { e with holes := e.holes ++ [[p]] }

/-! ## Part 2: embedding of the declaration file itself

The interfaces declared inside `declare module 'leaflet'` of
`ui-ngx/src/typings/leadflet-editable.d.ts`, their `extends` clauses and
their declared members, transcribed from the source.  `LeafletMapOptions`
and `Evented` stand for the pre-existing `leaflet.MapOptions` and
`leaflet.Evented` interfaces of the external library, which the file
references but does not declare.  `MapMapOptions` is the
`Map.MapOptions` interface declared inside `namespace Map`. -/

/-- The interfaces of the declaration file, plus the two external leaflet
interfaces it references as bases. -/
inductive TSInterface
  | EditableStatic
  | EditOptions
  | Editable
  | EditableMixin
  | Map
  | MapMapOptions
  | BaseEditor
  | PathEditor
  | PolylineEditor
  | PolygonEditor
  | MarkerEditor
  | Marker
  | Polyline
  | Polygon
  | LeafletMapOptions
  | Evented
  deriving DecidableEq, Repr

/-- Declared types of properties and of method return values, as written in
the source.  Parameter lists of methods are not part of the member model. -/
inductive MemberTy
  | booleanTy
  | objectTy
  | stringTy
  | voidTy
  | anyTy
  /-- `LayerGroup<leaflet.Layer>` (the `editLayer` option). -/
  | editLayerTy
  /-- `LayerGroup<Polyline|Polygon|Marker>` (the `featuresLayer` option). -/
  | featuresLayerTy
  /-- A reference to an interface of the file or of the external library. -/
  | ref (i : TSInterface)
  /-- The union `Polyline|Polygon|Marker`. -/
  | geomUnionTy
  /-- The union `MarkerEditor|PolylineEditor|PolygonEditor`. -/
  | editorUnionTy
  deriving DecidableEq, Repr

/-- One declared member of an interface: its name, whether it is declared
optional (`?`), and its declared type (for a method, the return type). -/
structure Member where
  name : String
  optional : Bool
  ty : MemberTy
  deriving DecidableEq, Repr

/-- The `extends` clause of each interface, transcribed from the source.
`Polyline` is declared twice (lines 193 and 270); TypeScript declaration
merging unions the two clauses, giving `EditableMixin, PolylineEditor`. -/
def declaredExtends : TSInterface → List TSInterface
  | .EditOptions => [.LeafletMapOptions]
  | .Editable => [.Evented]
  | .PathEditor => [.BaseEditor]
  | .PolylineEditor => [.PathEditor]
  | .PolygonEditor => [.PathEditor]
  | .MarkerEditor => [.BaseEditor]
  | .Marker => [.EditableMixin, .MarkerEditor]
  | .Polyline => [.EditableMixin, .PolylineEditor]
  | .Polygon => [.EditableMixin, .PolygonEditor]
  | _ => []

/-- The members declared directly on each interface, transcribed from the
source in declaration order.  Notes:
* `EditableStatic` has a single construct signature, recorded under the
  name `new`, returning `Editable`.
* In `interface Map`, the bare name `MapOptions` of `editOptions` resolves
  to the module-level `leaflet.MapOptions`, not to `Map.MapOptions`.
* Inside `namespace Map`, the bare name `MapOptions` of the nested
  `editOptions?` member resolves to `Map.MapOptions` itself.
* The external `LeafletMapOptions` and `Evented` interfaces contribute no
  members declared in this file. -/
def declaredMembers : TSInterface → List Member
  | .EditableStatic => [⟨"new", false, .ref .Editable⟩]
  | .EditOptions =>
    [⟨"editable", false, .booleanTy⟩,
     ⟨"polylineClass", true, .objectTy⟩,
     ⟨"polygonClass", true, .objectTy⟩,
     ⟨"markerClass", true, .objectTy⟩,
     ⟨"drawingCSSClass", true, .stringTy⟩,
     ⟨"editLayer", true, .editLayerTy⟩,
     ⟨"featuresLayer", true, .featuresLayerTy⟩,
     ⟨"vertexMarkerClass", true, .objectTy⟩,
     ⟨"middleMarkerClass", true, .objectTy⟩,
     ⟨"polylineEditorClass", true, .objectTy⟩,
     ⟨"polygonEditorClass", true, .objectTy⟩,
     ⟨"markerEditorClass", true, .objectTy⟩,
     ⟨"lineGuideOptions", true, .objectTy⟩,
     ⟨"skipMiddleMarkers", true, .booleanTy⟩]
  | .Editable =>
    [⟨"options", false, .ref .EditOptions⟩,
     ⟨"currentPolygon", false, .geomUnionTy⟩,
     ⟨"startPolyline", false, .ref .Polyline⟩,
     ⟨"startPolygon", false, .ref .Polygon⟩,
     ⟨"startMarker", false, .ref .Marker⟩,
     ⟨"stopDrawing", false, .voidTy⟩,
     ⟨"commitDrawing", false, .voidTy⟩]
  | .EditableMixin =>
    [⟨"enableEdit", false, .anyTy⟩,
     ⟨"disableEdit", false, .voidTy⟩,
     ⟨"toggleEdit", false, .voidTy⟩,
     ⟨"editEnabled", false, .booleanTy⟩]
  | .Map =>
    [⟨"editOptions", false, .ref .LeafletMapOptions⟩,
     ⟨"editTools", false, .ref .Editable⟩]
  | .MapMapOptions =>
    [⟨"editable", true, .booleanTy⟩,
     ⟨"editOptions", true, .ref .MapMapOptions⟩]
  | .BaseEditor =>
    [⟨"enable", false, .editorUnionTy⟩,
     ⟨"disable", false, .editorUnionTy⟩]
  | .PathEditor => [⟨"reset", false, .voidTy⟩]
  | .PolylineEditor =>
    [⟨"continueForward", false, .voidTy⟩,
     ⟨"continueBackward", false, .voidTy⟩]
  | .PolygonEditor => [⟨"newHole", false, .voidTy⟩]
  | _ => []

/-- Interfaces reachable from `i` through `extends` clauses, to the given
depth, `i` itself included.  The hierarchy of the file has depth at most
three (`Polygon → PolygonEditor → PathEditor → BaseEditor`). -/
def extendsClosureAux : Nat → TSInterface → List TSInterface
  | 0, i => [i]
  | n + 1, i => i :: (declaredExtends i).flatMap (extendsClosureAux n)

/-- All interfaces an interface inherits from, itself included. -/
def extendsClosure (i : TSInterface) : List TSInterface :=
  extendsClosureAux 4 i

/-- All members available on an interface: its own declared members plus
those inherited through its `extends` clauses. -/
def allMembers (i : TSInterface) : List Member :=
  (extendsClosure i).flatMap declaredMembers

/-- True iff the interface (directly or by inheritance) has a member of the
given name. -/
def hasMember (i : TSInterface) (n : String) : Bool :=
  (allMembers i).any (fun m => m.name = n)

/-! ## Helper lemmas -/

/-- `enableEdit` never increases the number of attached editors beyond one. -/
theorem enableEdit_editors_le_one {g : GeomState} (h : g.editors.length ≤ 1) :
    (enableEdit g).editors.length ≤ 1 := by
  obtain ⟨l⟩ := g
  cases l with
  | nil => simp [enableEdit]
  | cons e rest => simpa [enableEdit] using h

/-- The mixin operations maintain at most one attached editor. -/
theorem geomReachable_editors_le_one {g : GeomState} (h : GeomReachable g) :
    g.editors.length ≤ 1 := by
  induction h with
  | init => simp
  | enable _ ih => exact enableEdit_editors_le_one ih
  | disable _ _ => simp [disableEdit]
  | toggle _ ih =>
    unfold toggleEdit
    split
    · simp [disableEdit]
    · exact enableEdit_editors_le_one ih

/-- After `enableEdit` the attached editor is active. -/
theorem editEnabled_enableEdit (g : GeomState) :
    editEnabled (enableEdit g) = true := by
  obtain ⟨l⟩ := g
  cases l <;> rfl

/-- The start operations never leave more than one active draw. -/
theorem startDraw_activeDraws_le_one {k : DrawKind} {latLng : Option LatLng}
    {s : EditableState} (h : s.activeDraws.length ≤ 1) :
    ((startDraw k latLng s).2).activeDraws.length ≤ 1 := by
  obtain ⟨a, f⟩ := s
  cases a with
  | nil => simp [startDraw]
  | cons d rest => simpa [startDraw] using h

/-- `addVertex` does not change the number of active draws. -/
theorem addVertex_activeDraws_length (p : LatLng) (s : EditableState) :
    (addVertex p s).activeDraws.length = s.activeDraws.length := by
  obtain ⟨a, f⟩ := s
  cases a <;> rfl

/-- `commitDrawing` never increases the number of active draws. -/
theorem commitDrawing_activeDraws_le_one {s : EditableState}
    (h : s.activeDraws.length ≤ 1) :
    (commitDrawing s).activeDraws.length ≤ 1 := by
  obtain ⟨a, f⟩ := s
  cases a with
  | nil => exact h
  | cons d rest =>
    have h' : rest.length + 1 ≤ 1 := by simpa using h
    show rest.length ≤ 1
    omega

/-! ## Claims -/

/-- Claim C1: for every geometry instance, at most one editor is attached
at any time; `enableEdit()` creates an editor only if none exists and is a
no-op when already enabled (calling it twice in succession leaves exactly
one active editor attached), and `disableEdit()` removes the attached
editor reference entirely. -/
theorem geom_at_most_one_editor {g : GeomState} (h : GeomReachable g) :
    g.editors.length ≤ 1 ∧
    (enableEdit (enableEdit g)).editors.length = 1 ∧
    editEnabled (enableEdit (enableEdit g)) = true ∧
    (editEnabled g = true → enableEdit g = g) ∧
    (disableEdit g).editors = [] := by
  have hl := geomReachable_editors_le_one h
  refine ⟨hl, ?_, editEnabled_enableEdit _, ?_, rfl⟩
  · obtain ⟨l⟩ := g
    cases l with
    | nil => rfl
    | cons e rest =>
      cases rest with
      | nil => rfl
      | cons e' rest' => simp at hl
  · intro he
    obtain ⟨l⟩ := g
    cases l with
    | nil => simp [editEnabled, attachedEditor] at he
    | cons e rest =>
      obtain ⟨b⟩ := e
      simp [editEnabled, attachedEditor] at he
      subst he
      rfl

/-- Witness for C1: enabling an already-enabled geometry is a no-op. -/
theorem geom_at_most_one_editor_app :
    enableEdit (enableEdit (⟨[]⟩ : GeomState)) = enableEdit (⟨[]⟩ : GeomState) :=
  (geom_at_most_one_editor (GeomReachable.enable GeomReachable.init)).2.2.2.1 rfl

/-- Claim C2: in every reachable controller state there is never more than
one draw in progress; the zero-or-one active draw invariant is preserved by
`startPolyline`, `startPolygon`, `startMarker`, `stopDrawing` and
`commitDrawing`. -/
theorem editable_mutual_exclusion {s : EditableState} (h : Reachable s) :
    s.activeDraws.length ≤ 1 := by
  induction h with
  | init => simp
  | startPolyline latLng _ ih => exact startDraw_activeDraws_le_one ih
  | startPolygon latLng _ ih => exact startDraw_activeDraws_le_one ih
  | startMarker latLng _ ih => exact startDraw_activeDraws_le_one ih
  | addVertex p _ ih => rw [addVertex_activeDraws_length]; exact ih
  | stop _ _ => simp [stopDrawing]
  | commit _ ih => exact commitDrawing_activeDraws_le_one ih

/-- Witness for C2: after starting a polygon draw on a fresh controller, at
most one draw is in progress. -/
theorem editable_mutual_exclusion_app :
    ((startPolygon (some ((0 : Int), (0 : Int))) ⟨[], []⟩).2).activeDraws.length ≤ 1 :=
  editable_mutual_exclusion
    (Reachable.startPolygon (some ((0 : Int), (0 : Int))) Reachable.init)

/-- Claim C3: after `disableEdit()`, `editEnabled()` returns false;
`editEnabled()` is a pure query, true iff an editor is attached to the
instance and that editor is active. -/
theorem disableEdit_then_editEnabled_false (g : GeomState) :
    editEnabled (disableEdit g) = false ∧
    (editEnabled g = true ↔ ∃ e, attachedEditor g = some e ∧ e.enabled = true) := by
  refine ⟨rfl, ?_⟩
  obtain ⟨l⟩ := g
  cases l with
  | nil => simp [editEnabled, attachedEditor]
  | cons e rest => simp [editEnabled, attachedEditor]

/-- Claim C4: for every geometry in any starting state, `toggleEdit()`
called twice returns the geometry to its original enabled/disabled state:
`toggleEdit` is an involution on the edit-enabled flag. -/
theorem toggleEdit_twice_restores_flag (g : GeomState) :
    editEnabled (toggleEdit (toggleEdit g)) = editEnabled g := by
  obtain ⟨l⟩ := g
  cases l with
  | nil => rfl
  | cons e rest =>
    obtain ⟨b⟩ := e
    cases b <;> rfl

/-- Claim C5: `stopDrawing()` called with no active draw leaves the
controller state unchanged; it cancels any in-progress draw regardless of
geometry kind and is idempotent. -/
theorem stopDrawing_noop_idempotent (s : EditableState) :
    (s.activeDraws = [] → stopDrawing s = s) ∧
    (stopDrawing s).activeDraws = [] ∧
    stopDrawing (stopDrawing s) = stopDrawing s := by
  obtain ⟨a, f⟩ := s
  refine ⟨?_, rfl, rfl⟩
  intro ha
  simp only [stopDrawing]
  simp at ha
  subst ha
  rfl

/-- Witness for C5: stopping with no active draw is a no-op on a concrete
state with a nonempty features layer. -/
theorem stopDrawing_noop_idempotent_app :
    stopDrawing ⟨[], [⟨DrawKind.marker, [((4 : Int), (4 : Int))]⟩]⟩
      = ⟨[], [⟨DrawKind.marker, [((4 : Int), (4 : Int))]⟩]⟩ :=
  (stopDrawing_noop_idempotent ⟨[], [⟨DrawKind.marker, [((4 : Int), (4 : Int))]⟩]⟩).1 rfl

/-- Claim C6: `commitDrawing()` finalizes the in-progress geometry,
attaching it to the default output collection (`featuresLayer`), and with
no active draw it leaves the controller state unchanged. -/
theorem commitDrawing_finalizes_idempotent (s : EditableState) :
    (s.activeDraws = [] → commitDrawing s = s) ∧
    (∀ d rest, s.activeDraws = d :: rest →
      commitDrawing s = ⟨rest, s.featuresLayer ++ [d]⟩) := by
  obtain ⟨a, f⟩ := s
  cases a with
  | nil =>
    refine ⟨fun _ => rfl, ?_⟩
    intro d rest hdr
    simp at hdr
  | cons d0 rest0 =>
    refine ⟨fun hh => by simp at hh, ?_⟩
    intro d rest hdr
    simp at hdr
    obtain ⟨rfl, rfl⟩ := hdr
    rfl

/-- Witness for C6: committing a concrete in-progress marker attaches it to
the features layer, and committing with nothing in progress is a no-op. -/
theorem commitDrawing_finalizes_idempotent_app :
    commitDrawing ⟨[⟨DrawKind.marker, [((1 : Int), (2 : Int))]⟩], []⟩
        = ⟨[], [⟨DrawKind.marker, [((1 : Int), (2 : Int))]⟩]⟩ ∧
    commitDrawing ⟨[], [⟨DrawKind.marker, [((1 : Int), (2 : Int))]⟩]⟩
        = ⟨[], [⟨DrawKind.marker, [((1 : Int), (2 : Int))]⟩]⟩ :=
  ⟨(commitDrawing_finalizes_idempotent
      ⟨[⟨DrawKind.marker, [((1 : Int), (2 : Int))]⟩], []⟩).2
      ⟨DrawKind.marker, [((1 : Int), (2 : Int))]⟩ [] rfl,
   (commitDrawing_finalizes_idempotent
      ⟨[], [⟨DrawKind.marker, [((1 : Int), (2 : Int))]⟩]⟩).1 rfl⟩

/-- Claim C7: starting a polyline draw, adding exactly two vertices, then
`commitDrawing()` yields a finalized polyline containing exactly those two
vertices in insertion order; an initial point supplied to `startPolyline`
seeds the geometry with one vertex, and the call returns a handle to the
geometry under construction. -/
theorem startPolyline_commit_two_vertices (s : EditableState) (p q : LatLng)
    (h : s.activeDraws = []) :
    commitDrawing (addVertex q (addVertex p (startPolyline none s).2))
        = ⟨[], s.featuresLayer ++ [⟨DrawKind.polyline, [p, q]⟩]⟩ ∧
    (startPolyline (some p) s).1 = ⟨DrawKind.polyline, [p]⟩ ∧
    (startPolyline (some p) s).2.activeDraws = [⟨DrawKind.polyline, [p]⟩] := by
  obtain ⟨a, f⟩ := s
  simp at h
  subst h
  exact ⟨rfl, rfl, rfl⟩

/-- Witness for C7: a concrete polyline draw with two added vertices
commits to exactly those two vertices in insertion order. -/
theorem startPolyline_commit_two_vertices_app :
    commitDrawing (addVertex ((2 : Int), (3 : Int)) (addVertex ((0 : Int), (1 : Int))
        (startPolyline none ⟨[], []⟩).2))
      = ⟨[], [⟨DrawKind.polyline, [((0 : Int), (1 : Int)), ((2 : Int), (3 : Int))]⟩]⟩ :=
  (startPolyline_commit_two_vertices ⟨[], []⟩ (0, 1) (2, 3) rfl).1

/-- Claim C8: for every enabled polygon editor and every point,
`newHole(point)` begins a new interior ring seeded with that point as the
ring's first vertex and leaves the polygon's existing outer ring (and the
editor's enabled state) unchanged. -/
theorem newHole_seeds_ring_preserves_outer (e : PolygonEditorState) (p : LatLng)
    (h : e.enabled = true) :
    (newHole p e).outer = e.outer ∧
    (newHole p e).holes = e.holes ++ [[p]] ∧
    (newHole p e).holes.getLast? = some [p] ∧
    (newHole p e).enabled = true := by
  refine ⟨rfl, rfl, ?_, h⟩
  simp [newHole]

/-- Witness for C8: adding a hole to a concrete enabled polygon editor
leaves its outer ring unchanged and appends the seeded ring. -/
theorem newHole_seeds_ring_preserves_outer_app :
    (newHole ((5 : Int), (5 : Int))
        ⟨true, [((0 : Int), (0 : Int)), (0, 9), (9, 9)], []⟩).outer
      = [((0 : Int), (0 : Int)), (0, 9), (9, 9)] ∧
    (newHole ((5 : Int), (5 : Int))
        ⟨true, [((0 : Int), (0 : Int)), (0, 9), (9, 9)], []⟩).holes
      = [[((5 : Int), (5 : Int))]] := by
  have hthm := newHole_seeds_ring_preserves_outer
    ⟨true, [((0 : Int), (0 : Int)), (0, 9), (9, 9)], []⟩ ((5 : Int), (5 : Int)) rfl
  exact ⟨hthm.1, hthm.2.1⟩

/-- Counterexample for C9: the `editOptions` property of the declared `Map`
interface does not carry the full `EditOptions` set of the configuration
record; its declared type is the external base `leaflet.MapOptions`. -/
theorem map_editOptions_not_EditOptions :
    ((declaredMembers TSInterface.Map).any
        (fun m => m.name = "editOptions" && m.ty = MemberTy.ref TSInterface.EditOptions))
      = false ∧
    Member.mk "editOptions" false (MemberTy.ref TSInterface.LeafletMapOptions)
      ∈ declaredMembers TSInterface.Map := by
  decide

/-- Claim C9 (amended): every map handle exposes `editOptions` and
`editTools` as queryable properties; `editTools` is declared with the
`Editable` controller type, while `editOptions` is declared with the
external base `leaflet.MapOptions` type, not with the full `EditOptions`
set. -/
theorem map_exposes_editOptions_editTools :
    Member.mk "editOptions" false (MemberTy.ref TSInterface.LeafletMapOptions)
      ∈ declaredMembers TSInterface.Map ∧
    Member.mk "editTools" false (MemberTy.ref TSInterface.Editable)
      ∈ declaredMembers TSInterface.Map := by
  decide

/-- Claim C10: the declared geometry interfaces extend the corresponding
editor interfaces, not only the mixin, so each geometry directly supports
the editor operations of its kind: every `Polyline` supports `enable`,
`disable`, `reset`, `continueForward` and `continueBackward`; every
`Polygon` supports `enable`, `disable`, `reset` and additionally `newHole`;
every `Marker` supports `enable` and `disable`; all three also carry the
`EditableMixin` operations. -/
theorem geometries_extend_editor_interfaces :
    declaredExtends TSInterface.Marker
        = [TSInterface.EditableMixin, TSInterface.MarkerEditor] ∧
    declaredExtends TSInterface.Polyline
        = [TSInterface.EditableMixin, TSInterface.PolylineEditor] ∧
    declaredExtends TSInterface.Polygon
        = [TSInterface.EditableMixin, TSInterface.PolygonEditor] ∧
    (["enableEdit", "disableEdit", "toggleEdit", "editEnabled",
      "enable", "disable", "reset", "continueForward", "continueBackward"].all
        (hasMember TSInterface.Polyline)) = true ∧
    (["enableEdit", "disableEdit", "toggleEdit", "editEnabled",
      "enable", "disable", "reset", "newHole"].all
        (hasMember TSInterface.Polygon)) = true ∧
    (["enableEdit", "disableEdit", "toggleEdit", "editEnabled",
      "enable", "disable"].all (hasMember TSInterface.Marker)) = true := by
  decide

end LeafletEditable
